import Mathlib

/-!
Shallow embedding of the xmlwrapp tree-building parser core:
`xml::impl::printf2string` (src/libxml/utility.cxx), the SAX callback
bridge (`cb_tree_error`, `cb_tree_warning`, `cb_tree_ignore`), the
per-parse state `xml::impl::tree_impl`, and the two `xml::tree_parser`
constructors (file-based and memory-based) together with the query
surface (`operator!`, `get_error_message`, `had_warnings`,
`get_document`).

The underlying libxml2 library is external to the repository; its
observable behaviour during one parse is modelled as data handed to the
constructor functions: the sequence of callback events it fires, the
document pointer it returns, whether the memory parser context could be
created, the `wellFormed` flag and the return value of
`xmlParseDocument`, and (for the secondary diagnostic of the file
constructor) whether `fopen(name, "r")` succeeds.  Non-null `xmlDocPtr`
values are modelled as natural numbers, a null pointer as `none`.
-/

namespace Xmlwrapp

/-- The NUL character, terminator of C strings. -/
def nulChar : Char := Char.ofNat 0

/-- `sizeof(buffer)` in `printf2string`: `char buffer[512]`. -/
def bufSize : Nat := 512

/-- Modulus of the unsigned 64-bit type `std::string::size_type`; the
subtraction `size - 1` in `printf2string` wraps modulo this value. -/
def SIZE_T_MOD : Nat := 2 ^ 64

/-- Contents of the 512-byte `buffer` after `memset(buffer, 0, 512)`
followed by `vsnprintf(buffer, 512, message, ap)`, given the full
(untruncated) formatted output `out` of the format directives:
`vsnprintf` stores the first `min (out.length) 511` characters and the
remaining bytes stay NUL from the `memset`. -/
def vsnprintfBuffer (out : List Char) : List Char :=
  out.take (bufSize - 1) ++
    List.replicate (bufSize - (out.take (bufSize - 1)).length) nulChar

/-- `std::strlen` on a character buffer: number of characters before the
first NUL. -/
def strlen (buf : List Char) : Nat :=
  (buf.takeWhile (fun c => c != nulChar)).length

/-- `xml::impl::printf2string(std::string &s, const char *message, va_list ap)`
from src/libxml/utility.cxx.  `out` is the full formatted output of
`message` with the given arguments (so `vsnprintf` returns `out.length`
on success, per C99); `fmtRetNeg` models the encoding-failure case in
which `vsnprintf` returns a negative value.  The guarded branch runs
exactly when the return value is `> 0`.  The read `buffer[size - 1]`
is modelled with the unsigned-wrapped index; an index that falls outside
the buffer (the `size = 0` case) finds no `'\n'` here, while the
separate checker `printf2stringReadsInBounds` records whether that read
was in bounds at all. -/
def printf2string (s : String) (out : List Char) (fmtRetNeg : Bool) : String :=
  let buffer := vsnprintfBuffer out
  if !fmtRetNeg && decide (0 < out.length) then
    let size := strlen buffer
    let idx := (size + (SIZE_T_MOD - 1)) % SIZE_T_MOD
    let size2 := if buffer.getD idx nulChar = '\n' then size - 1 else size
    String.mk (buffer.take size2)
  else s

/-- Whether the single unguarded buffer read of `printf2string` — the
trailing-newline test `buffer[size - 1]` — stays inside the 512-byte
buffer.  (`strlen` and `s.assign(buffer, size)` only touch
`buffer[0 .. size]` with `size ≤ 511`, always in bounds.) -/
def printf2stringReadsInBounds (out : List Char) (fmtRetNeg : Bool) : Bool :=
  if !fmtRetNeg && decide (0 < out.length) then
    decide ((strlen (vsnprintfBuffer out) + (SIZE_T_MOD - 1)) % SIZE_T_MOD < bufSize)
  else true

/-- Specification-side restatement of the `printf2string` contract, for
comparison with the embedded code: on positive formatted length, keep
the formatted output truncated to the 511 characters that fit the
512-byte buffer and cut at the first embedded NUL, then strip a single
trailing newline; on zero or negative length leave `s` unchanged. -/
def printf2stringSpec (s : String) (out : List Char) (fmtRetNeg : Bool) : String :=
  if fmtRetNeg || out.length = 0 then s
  else
    let kept := (out.take (bufSize - 1)).takeWhile (fun c => c != nulChar)
    String.mk (if kept.getLast? = some '\n' then kept.dropLast else kept)

/-- A non-null `xmlDocPtr` is modelled as a `Nat` identifying the tree;
`none` is the null pointer. -/
abbrev XmlDocPtr := Option Nat

/-- `xml::impl::tree_impl`: the per-parse session state.  `doc_` holds
the tree transferred by `set_doc_data` (none = the default empty
document the handle starts with). -/
structure tree_impl where
  doc_ : XmlDocPtr
  last_error_ : String
  warnings_ : Bool
  okay_ : Bool
deriving Repr, DecidableEq

/-- The sentinel error text `DEFAULT_ERROR`. -/
def DEFAULT_ERROR : String := "unknown XML parsing error"

/-- `tree_impl::tree_impl()`: `last_error_(DEFAULT_ERROR), warnings_(false),
okay_(false)`; the document handle starts empty. -/
def treeImplInit : tree_impl :=
  { doc_ := none, last_error_ := DEFAULT_ERROR, warnings_ := false, okay_ := false }

/-- Session state right after `pimpl_->okay_ = true;` at the start of a
parse in either constructor. -/
def treeImplStart : tree_impl := { treeImplInit with okay_ := true }

/-- `cb_tree_error(void *v, const char *message, ...)`:
`ctxtPrivateNull` models `ctxt->_private == 0` (the defect in older
libxml versions); `msg`/`fmtRetNeg` describe the formatted message as in
`printf2string`.  On a non-null back-pointer: `okay_ = false` and the
message is formatted into `last_error_`.  (`xmlStopParser` only affects
which further events libxml delivers, which is external input here.) -/
def cb_tree_error (ctxtPrivateNull : Bool) (msg : List Char) (fmtRetNeg : Bool)
    (p : tree_impl) : tree_impl :=
  if ctxtPrivateNull then p
  else { p with okay_ := false,
                last_error_ := printf2string p.last_error_ msg fmtRetNeg }

/-- `cb_tree_warning(void *v, const char *, ...)`: the message varargs
are ignored by the source already at the signature; on a non-null
back-pointer only `warnings_` is set. -/
def cb_tree_warning (ctxtPrivateNull : Bool) (_msg : List Char)
    (p : tree_impl) : tree_impl :=
  if ctxtPrivateNull then p else { p with warnings_ := true }

/-- `cb_tree_ignore(void*, const xmlChar*, int)`: empty body. -/
def cb_tree_ignore (p : tree_impl) : tree_impl := p

/-- One callback invocation libxml performs during a parse. -/
inductive CbEvent where
  | error (ctxtPrivateNull : Bool) (msg : List Char) (fmtRetNeg : Bool)
  | warning (ctxtPrivateNull : Bool) (msg : List Char)
  | ignorableWhitespace
deriving Repr, DecidableEq

/-- Dispatch of one callback event to the installed handler
(`sax_.error = sax_.fatalError = cb_tree_error`,
`sax_.warning = cb_tree_warning`,
`sax_.ignorableWhitespace = cb_tree_ignore`). -/
def runEvent (p : tree_impl) (e : CbEvent) : tree_impl :=
  match e with
  | .error n m f => cb_tree_error n m f p
  | .warning n m => cb_tree_warning n m p
  | .ignorableWhitespace => cb_tree_ignore p

/-- Effect on the session state of the callbacks fired (in order) during
one parse. -/
def runCallbacks (events : List CbEvent) (p : tree_impl) : tree_impl :=
  events.foldl runEvent p

/-- Whether an event is an invocation of the error/fatalError handler. -/
def isErrorEvent : CbEvent → Bool
  | .error _ _ _ => true
  | _ => false

/-- The message of the last error-handler invocation that actually
overwrites `last_error_`: non-null back-pointer and a message that
formats to positive length (otherwise `printf2string` leaves the string
unchanged). -/
def lastOverwritingMsg : List CbEvent → Option (List Char)
  | [] => none
  | e :: rest =>
    match lastOverwritingMsg rest with
    | some m => some m
    | none =>
      match e with
      | .error nullp m ferr =>
        if !nullp && (!ferr && decide (0 < m.length)) then some m else none
      | _ => none

/-- Observable behaviour of libxml during `xmlSAXParseFileWithData`, plus
the outcome of the `fopen(name, "r")` probe used by the secondary
diagnostic. -/
structure FileParseBehavior where
  events : List CbEvent
  tmpdoc : XmlDocPtr
  fopenSucceeds : Bool
deriving Repr, DecidableEq

/-- Result of running `tree_parser::tree_parser(const char *name, bool)`:
either the constructor completes with the final session state, or it
throws `xml::exception` carrying the error text.  `freedPartialDoc`
records whether `xmlFreeDoc(tmpdoc)` was executed on a non-null tree. -/
structure FileCtorOutcome where
  result : Except String tree_impl
  freedPartialDoc : Bool

/-- `tree_parser::tree_parser(const char *name, bool allow_exceptions)`
from the tree-parser translation unit: create the session, mark it
tentatively okay, run the SAX file parse (callbacks mutate the session),
then dispatch on `tmpdoc && pimpl_->okay_`; on failure run the
sentinel/fopen diagnostic, free a partial tree, clear `okay_`, and throw
iff `allow_exceptions`. -/
def tree_parser_file (name : String) (allow_exceptions : Bool)
    (b : FileParseBehavior) : FileCtorOutcome :=
  let p1 := runCallbacks b.events treeImplStart
  if b.tmpdoc.isSome && p1.okay_ then
    { result := .ok { p1 with doc_ := b.tmpdoc }, freedPartialDoc := false }
  else
    let p2 :=
      if p1.last_error_ = DEFAULT_ERROR then
        if b.fopenSucceeds then p1
        else { p1 with
               last_error_ := "failed to open file \"" ++ name ++ "\"" }
      else p1
    let p3 := { p2 with okay_ := false }
    if allow_exceptions then
      { result := .error p3.last_error_, freedPartialDoc := b.tmpdoc.isSome }
    else
      { result := .ok p3, freedPartialDoc := b.tmpdoc.isSome }

/-- Observable behaviour of libxml during the memory-based parse:
whether `xmlCreateMemoryParserCtxt(data, size)` returned non-null, the
callback events of `xmlParseDocument`, the context's `wellFormed` flag,
the return value of `xmlParseDocument`, and `ctxt->myDoc`. -/
structure MemParseBehavior where
  ctxtCreated : Bool
  events : List CbEvent
  wellFormed : Bool
  retval : Int
  myDoc : XmlDocPtr
deriving Repr, DecidableEq

/-- The two exception types the memory constructor can throw. -/
inductive MemCtorThrow where
  | badAlloc
  | xmlException (msg : String)
deriving Repr, DecidableEq

/-- Result of `tree_parser::tree_parser(const char *data, size_type, bool)`. -/
structure MemCtorOutcome where
  result : Except MemCtorThrow tree_impl
  freedPartialDoc : Bool

/-- `tree_parser::tree_parser(const char *data, size_type size,
bool allow_exceptions)`: if the memory parser context cannot be created,
`throw std::bad_alloc()` unconditionally; otherwise install the session
SAX table and back-pointer, mark okay, run `xmlParseDocument`, and
dispatch on `!ctxt->wellFormed || retval != 0 || !pimpl_->okay_`.
(The SAX-table detach/free choreography on `ctxt` manages memory of the
context only and has no further observable effect on the session.) -/
def tree_parser_mem (allow_exceptions : Bool) (b : MemParseBehavior) : MemCtorOutcome :=
  if !b.ctxtCreated then
    { result := .error .badAlloc, freedPartialDoc := false }
  else
    let p1 := runCallbacks b.events treeImplStart
    if !b.wellFormed || b.retval != 0 || !p1.okay_ then
      let p2 := { p1 with okay_ := false }
      if allow_exceptions then
        { result := .error (.xmlException p2.last_error_),
          freedPartialDoc := b.myDoc.isSome }
      else
        { result := .ok p2, freedPartialDoc := b.myDoc.isSome }
    else
      { result := .ok { p1 with doc_ := b.myDoc, okay_ := true },
        freedPartialDoc := false }

/-- Error text produced by the failure branch of the file constructor:
the session's `last_error_` after the secondary `fopen` diagnostic has
possibly replaced the untouched sentinel. -/
def fileFailureErrorText (name : String) (b : FileParseBehavior) : String :=
  if (runCallbacks b.events treeImplStart).last_error_ = DEFAULT_ERROR then
    if b.fopenSucceeds then DEFAULT_ERROR
    else "failed to open file \"" ++ name ++ "\""
  else (runCallbacks b.events treeImplStart).last_error_

/-- `tree_parser::operator!`: `return !pimpl_->okay_;` — the `failed()`
query of the spec. -/
def tree_parser_opNot (p : tree_impl) : Bool := !p.okay_

/-- `tree_parser::get_error_message`: `return pimpl_->last_error_;` -/
def get_error_message (p : tree_impl) : String := p.last_error_

/-- `tree_parser::had_warnings`: `return pimpl_->warnings_;` -/
def had_warnings (p : tree_impl) : Bool := p.warnings_

/-- `tree_parser::get_document`: `return pimpl_->doc_;` -/
def get_document (p : tree_impl) : XmlDocPtr := p.doc_

end Xmlwrapp

namespace Xmlwrapp

theorem runEvent_doc (p : tree_impl) (e : CbEvent) : (runEvent p e).doc_ = p.doc_ := by
  cases e <;> simp only [runEvent, cb_tree_error, cb_tree_warning, cb_tree_ignore] <;>
    split <;> rfl

theorem runCallbacks_doc (evs : List CbEvent) (p : tree_impl) :
    (runCallbacks evs p).doc_ = p.doc_ := by
  induction evs generalizing p with
  | nil => rfl
  | cons e rest ih =>
    simp only [runCallbacks, List.foldl_cons] at *
    rw [ih, runEvent_doc]

theorem printf2string_noop (s : String) (out : List Char) (f : Bool)
    (h : f = true ∨ out = []) : printf2string s out f = s := by
  rcases h with h | h <;> simp [printf2string, h]

theorem printf2string_base_irrel (s t : String) (out : List Char)
    (h : 0 < out.length) : printf2string s out false = printf2string t out false := by
  simp [printf2string, h]

theorem tree_parser_file_success_eq (name : String) (ae : Bool) (b : FileParseBehavior)
    (hc : (b.tmpdoc.isSome && (runCallbacks b.events treeImplStart).okay_) = true) :
    tree_parser_file name ae b =
      { result := Except.ok { runCallbacks b.events treeImplStart with doc_ := b.tmpdoc },
        freedPartialDoc := false } := by
  simp [tree_parser_file, hc]

theorem tree_parser_file_fail_eq (name : String) (ae : Bool) (b : FileParseBehavior)
    (hc : (b.tmpdoc.isSome && (runCallbacks b.events treeImplStart).okay_) = false) :
    tree_parser_file name ae b =
      { result :=
          if ae then Except.error (fileFailureErrorText name b)
          else Except.ok
            { doc_ := (runCallbacks b.events treeImplStart).doc_,
              last_error_ := fileFailureErrorText name b,
              warnings_ := (runCallbacks b.events treeImplStart).warnings_,
              okay_ := false },
        freedPartialDoc := b.tmpdoc.isSome } := by
  cases ae <;>
    by_cases hs : (runCallbacks b.events treeImplStart).last_error_ = DEFAULT_ERROR <;>
    by_cases hfp : b.fopenSucceeds = true <;>
    simp [tree_parser_file, fileFailureErrorText, hc, hs, hfp]

theorem tree_parser_mem_success_eq (ae : Bool) (b : MemParseBehavior)
    (hctxt : b.ctxtCreated = true)
    (hc : (!b.wellFormed || b.retval != 0 || !(runCallbacks b.events treeImplStart).okay_) = false) :
    tree_parser_mem ae b =
      { result := Except.ok
          { runCallbacks b.events treeImplStart with doc_ := b.myDoc, okay_ := true },
        freedPartialDoc := false } := by
  simp [tree_parser_mem, hctxt, hc]

theorem tree_parser_mem_fail_eq (ae : Bool) (b : MemParseBehavior)
    (hctxt : b.ctxtCreated = true)
    (hc : (!b.wellFormed || b.retval != 0 || !(runCallbacks b.events treeImplStart).okay_) = true) :
    tree_parser_mem ae b =
      { result :=
          if ae then
            Except.error (MemCtorThrow.xmlException (runCallbacks b.events treeImplStart).last_error_)
          else Except.ok { runCallbacks b.events treeImplStart with okay_ := false },
        freedPartialDoc := b.myDoc.isSome } := by
  cases ae <;> simp [tree_parser_mem, hctxt, hc]

theorem tree_parser_mem_noctxt_eq (ae : Bool) (b : MemParseBehavior)
    (hctxt : b.ctxtCreated = false) :
    tree_parser_mem ae b =
      { result := Except.error MemCtorThrow.badAlloc, freedPartialDoc := false } := by
  simp [tree_parser_mem, hctxt]

/-- Claim C1: for every tree_parser construction (file-based or memory-based)
that completes, exactly one of the two outcomes holds: the parse
succeeded, `failed()` (`operator!`) returns false and the document
handle owns the parsed tree; or failure is reported, `failed()` returns
true and the document handle holds no parsed tree.  Stated as the
equivalence `failed() = false ↔ the handle holds a tree`, which packs
the dichotomy and its exclusivity; for the memory constructor, the
libxml guarantee that a well-formed parse leaves a non-null
`ctxt->myDoc` is an explicit hypothesis. -/
theorem c1_construction_dichotomy :
    (∀ (name : String) (ae : Bool) (b : FileParseBehavior) (p : tree_impl),
        (tree_parser_file name ae b).result = Except.ok p →
        (tree_parser_opNot p = false ↔ p.doc_.isSome = true)) ∧
    (∀ (ae : Bool) (b : MemParseBehavior) (p : tree_impl),
        (b.wellFormed = true → b.myDoc.isSome = true) →
        (tree_parser_mem ae b).result = Except.ok p →
        (tree_parser_opNot p = false ↔ p.doc_.isSome = true)) := by
  have hdoc : ∀ evs : List CbEvent, (runCallbacks evs treeImplStart).doc_ = none := by
    intro evs; rw [runCallbacks_doc]; rfl
  constructor
  · intro name ae b p hres
    cases hc : (b.tmpdoc.isSome && (runCallbacks b.events treeImplStart).okay_) with
    | false =>
      rw [tree_parser_file_fail_eq name ae b hc] at hres
      cases ae
      · simp only [Bool.false_eq_true, if_false, Except.ok.injEq] at hres
        subst hres
        simp [tree_parser_opNot, hdoc b.events]
      · simp at hres
    | true =>
      rw [tree_parser_file_success_eq name ae b hc] at hres
      simp only [Except.ok.injEq] at hres
      subst hres
      rw [Bool.and_eq_true] at hc
      simp [tree_parser_opNot, hc.1, hc.2]
  · intro ae b p hwf hres
    cases hctxt : b.ctxtCreated with
    | false =>
      rw [tree_parser_mem_noctxt_eq ae b hctxt] at hres
      simp at hres
    | true =>
      cases hc : (!b.wellFormed || b.retval != 0 || !(runCallbacks b.events treeImplStart).okay_) with
      | false =>
        rw [tree_parser_mem_success_eq ae b hctxt hc] at hres
        simp only [Except.ok.injEq] at hres
        subst hres
        have hwf2 : b.wellFormed = true := by
          cases hw : b.wellFormed with
          | false => rw [hw] at hc; simp at hc
          | true => rfl
        simp [tree_parser_opNot, hwf hwf2]
      | true =>
        rw [tree_parser_mem_fail_eq ae b hctxt hc] at hres
        cases ae
        · simp only [Bool.false_eq_true, if_false, Except.ok.injEq] at hres
          subst hres
          simp [tree_parser_opNot, hdoc b.events]
        · simp at hres

theorem c1_witness :
    (tree_parser_opNot { doc_ := some 1, last_error_ := DEFAULT_ERROR, warnings_ := false, okay_ := true } = false ↔ (some 1 : XmlDocPtr).isSome = true) ∧
    (tree_parser_opNot { doc_ := none, last_error_ := DEFAULT_ERROR, warnings_ := false, okay_ := false } = false ↔ (none : XmlDocPtr).isSome = true) :=
  ⟨c1_construction_dichotomy.1 "f" true { events := [], tmpdoc := some 1, fopenSucceeds := true } { doc_ := some 1, last_error_ := DEFAULT_ERROR, warnings_ := false, okay_ := true } rfl,
   c1_construction_dichotomy.2 false { ctxtCreated := true, events := [], wellFormed := false, retval := 1, myDoc := none } { doc_ := none, last_error_ := DEFAULT_ERROR, warnings_ := false, okay_ := false } (by decide) rfl⟩

/-- Claim C5: for every malformed input (file-based or memory-based: the
constructor's failure condition holds), constructing with
`allow_exceptions = false` raises no exception: construction completes
with an ordinary result (`Except.ok`) and the failure is observable only
through the query surface, `failed()` (`operator!`) returning true.  For
the memory constructor, malformed input presupposes that the parser
context itself was created, since context-allocation failure is an
infrastructure failure, not malformedness. -/
theorem c5_no_exception_when_disallowed :
    (∀ (name : String) (b : FileParseBehavior),
        (b.tmpdoc.isSome && (runCallbacks b.events treeImplStart).okay_) = false →
        ∃ p, (tree_parser_file name false b).result = Except.ok p ∧
          tree_parser_opNot p = true) ∧
    (∀ (b : MemParseBehavior), b.ctxtCreated = true →
        (!b.wellFormed || b.retval != 0 || !(runCallbacks b.events treeImplStart).okay_) = true →
        ∃ p, (tree_parser_mem false b).result = Except.ok p ∧
          tree_parser_opNot p = true) := by
  constructor
  · intro name b h
    rw [tree_parser_file_fail_eq name false b h]
    exact ⟨_, rfl, rfl⟩
  · intro b hctxt h
    rw [tree_parser_mem_fail_eq false b hctxt h]
    exact ⟨_, rfl, rfl⟩

theorem c5_witness :
    (∃ p, (tree_parser_file "f" false { events := [], tmpdoc := none, fopenSucceeds := true }).result = Except.ok p ∧ tree_parser_opNot p = true) ∧
    (∃ p, (tree_parser_mem false { ctxtCreated := true, events := [], wellFormed := false, retval := 0, myDoc := none }).result = Except.ok p ∧ tree_parser_opNot p = true) :=
  ⟨c5_no_exception_when_disallowed.1 "f" { events := [], tmpdoc := none, fopenSucceeds := true } rfl,
   c5_no_exception_when_disallowed.2 { ctxtCreated := true, events := [], wellFormed := false, retval := 0, myDoc := none } rfl rfl⟩

/-- Claim C6: in the memory-based constructor, if `xmlCreateMemoryParserCtxt`
fails (returns null), `std::bad_alloc` is thrown unconditionally,
regardless of the value of `allow_exceptions`. -/
theorem c6_ctxt_alloc_failure_always_throws :
    ∀ (ae : Bool) (b : MemParseBehavior), b.ctxtCreated = false →
      (tree_parser_mem ae b).result = Except.error MemCtorThrow.badAlloc := by
  intro ae b h
  simp [tree_parser_mem, h]

theorem c6_witness :
    ((tree_parser_mem true { ctxtCreated := false, events := [], wellFormed := true, retval := 0, myDoc := none }).result = Except.error MemCtorThrow.badAlloc) ∧
    ((tree_parser_mem false { ctxtCreated := false, events := [], wellFormed := true, retval := 0, myDoc := none }).result = Except.error MemCtorThrow.badAlloc) :=
  ⟨c6_ctxt_alloc_failure_always_throws true { ctxtCreated := false, events := [], wellFormed := true, retval := 0, myDoc := none } rfl,
   c6_ctxt_alloc_failure_always_throws false { ctxtCreated := false, events := [], wellFormed := true, retval := 0, myDoc := none } rfl⟩

/-- Claim C8: the warning callback with a null back-pointer is a complete
no-op; with a non-null back-pointer it sets `warnings_` to true and
changes nothing else — `last_error_`, the success flag `okay_` and the
document are untouched — and the message text is discarded: the result
does not depend on it. -/
theorem c8_warning_callback_frame :
    ∀ (m : List Char) (p : tree_impl),
      cb_tree_warning true m p = p ∧
      (cb_tree_warning false m p).warnings_ = true ∧
      (cb_tree_warning false m p).last_error_ = p.last_error_ ∧
      (cb_tree_warning false m p).okay_ = p.okay_ ∧
      (cb_tree_warning false m p).doc_ = p.doc_ ∧
      (∀ m2 : List Char, cb_tree_warning false m p = cb_tree_warning false m2 p) := by
  intro m p
  simp [cb_tree_warning]

/-- Claim C9 evidence: this theorem shows that the claimed bounds-safety fails.  When the
formatted output is a single NUL character (e.g. format `"%c"` with
character value 0, for which `vsnprintf` returns 1 > 0),
`strlen(buffer)` is 0 and the trailing-newline test reads
`buffer[(size_t)0 - 1]`, i.e. index 2^64 - 1: far outside the 512-byte
buffer. -/
theorem c9_newline_read_out_of_bounds :
    strlen (vsnprintfBuffer [nulChar]) = 0 ∧
    (strlen (vsnprintfBuffer [nulChar]) + (SIZE_T_MOD - 1)) % SIZE_T_MOD = 18446744073709551615 ∧
    printf2stringReadsInBounds [nulChar] false = false :=
  ⟨by decide, by decide, by decide⟩

/-- Claim C2: for every parse (file-based or memory-based) in which the
library produced a tree (`tmpdoc`/`myDoc` non-null) but the session's
success flag was flipped false (only `cb_tree_error` with a non-null
back-pointer can do that), construction treats the result as failure:
`xmlFreeDoc` is called on the partial tree (`freedPartialDoc`), it is
never transferred into the document handle, and the error text recorded
by the callbacks is kept — exactly so in the memory constructor, and in
the file constructor whenever a specific (non-sentinel) text was
recorded, the sentinel case being the domain of the C3 diagnostic. -/
theorem c2_partial_tree_discarded :
    (∀ (name : String) (ae : Bool) (b : FileParseBehavior),
        b.tmpdoc.isSome = true →
        (runCallbacks b.events treeImplStart).okay_ = false →
        (tree_parser_file name ae b).freedPartialDoc = true ∧
        (∀ p, (tree_parser_file name ae b).result = Except.ok p →
          get_document p = none) ∧
        ((runCallbacks b.events treeImplStart).last_error_ ≠ DEFAULT_ERROR →
          (∀ p, (tree_parser_file name ae b).result = Except.ok p →
            get_error_message p = (runCallbacks b.events treeImplStart).last_error_) ∧
          (∀ m, (tree_parser_file name ae b).result = Except.error m →
            m = (runCallbacks b.events treeImplStart).last_error_))) ∧
    (∀ (ae : Bool) (b : MemParseBehavior),
        b.ctxtCreated = true →
        b.myDoc.isSome = true →
        (runCallbacks b.events treeImplStart).okay_ = false →
        (tree_parser_mem ae b).freedPartialDoc = true ∧
        (∀ p, (tree_parser_mem ae b).result = Except.ok p →
          get_document p = none ∧
          get_error_message p = (runCallbacks b.events treeImplStart).last_error_) ∧
        (∀ t, (tree_parser_mem ae b).result = Except.error t →
          t = MemCtorThrow.xmlException (runCallbacks b.events treeImplStart).last_error_)) := by
  have hdoc : ∀ evs : List CbEvent, (runCallbacks evs treeImplStart).doc_ = none := by
    intro evs; rw [runCallbacks_doc]; rfl
  constructor
  · intro name ae b hsome hokay
    have hc : (b.tmpdoc.isSome && (runCallbacks b.events treeImplStart).okay_) = false := by
      rw [hokay, Bool.and_false]
    rw [tree_parser_file_fail_eq name ae b hc]
    refine ⟨hsome, ?_, ?_⟩
    · intro p hp
      cases ae
      · simp only [Bool.false_eq_true, if_false, Except.ok.injEq] at hp
        subst hp
        simp [get_document, hdoc b.events]
      · simp at hp
    · intro hne
      have htext : fileFailureErrorText name b = (runCallbacks b.events treeImplStart).last_error_ := by
        simp [fileFailureErrorText, hne]
      constructor
      · intro p hp
        cases ae
        · simp only [Bool.false_eq_true, if_false, Except.ok.injEq] at hp
          subst hp
          simp [get_error_message, htext]
        · simp at hp
      · intro m hm
        cases ae
        · simp at hm
        · simp only [if_true] at hm
          simp only [Except.error.injEq] at hm
          rw [← hm, htext]
  · intro ae b hctxt hsome hokay
    have hc : (!b.wellFormed || b.retval != 0 || !(runCallbacks b.events treeImplStart).okay_) = true := by
      rw [hokay]
      simp
    rw [tree_parser_mem_fail_eq ae b hctxt hc]
    refine ⟨hsome, ?_, ?_⟩
    · intro p hp
      cases ae
      · simp only [Bool.false_eq_true, if_false, Except.ok.injEq] at hp
        subst hp
        exact ⟨by simp [get_document, hdoc b.events], rfl⟩
      · simp at hp
    · intro t ht
      cases ae
      · simp at ht
      · simp only [if_true, Except.error.injEq] at ht
        rw [← ht]

theorem c2_witness :
    ((tree_parser_file "f" false { events := [CbEvent.error false ['b', 'a', 'd'] false], tmpdoc := some 7, fopenSucceeds := true }).freedPartialDoc = true) ∧
    ((tree_parser_mem false { ctxtCreated := true, events := [CbEvent.error false ['b', 'a', 'd'] false], wellFormed := true, retval := 0, myDoc := some 7 }).freedPartialDoc = true) :=
  ⟨(c2_partial_tree_discarded.1 "f" false { events := [CbEvent.error false ['b', 'a', 'd'] false], tmpdoc := some 7, fopenSucceeds := true } rfl (by decide)).1,
   (c2_partial_tree_discarded.2 false { ctxtCreated := true, events := [CbEvent.error false ['b', 'a', 'd'] false], wellFormed := true, retval := 0, myDoc := some 7 } rfl rfl (by decide)).1⟩

/-- Claim C3: for every file-based parse that takes the failure branch with
`last_error_` still equal to the sentinel `DEFAULT_ERROR`, the secondary
diagnostic runs: if `fopen(name, "r")` fails, the error text (whether
delivered through the failed state or through the thrown exception)
becomes the "failed to open file" message naming the path; if the file
can be opened, the sentinel is left unchanged. -/
theorem c3_fopen_diagnostic :
    ∀ (name : String) (ae : Bool) (b : FileParseBehavior),
      (b.tmpdoc.isSome && (runCallbacks b.events treeImplStart).okay_) = false →
      (runCallbacks b.events treeImplStart).last_error_ = DEFAULT_ERROR →
      ((b.fopenSucceeds = false →
          (∀ p, (tree_parser_file name ae b).result = Except.ok p →
            get_error_message p = "failed to open file \"" ++ name ++ "\"") ∧
          (∀ m, (tree_parser_file name ae b).result = Except.error m →
            m = "failed to open file \"" ++ name ++ "\"")) ∧
       (b.fopenSucceeds = true →
          (∀ p, (tree_parser_file name ae b).result = Except.ok p →
            get_error_message p = DEFAULT_ERROR) ∧
          (∀ m, (tree_parser_file name ae b).result = Except.error m →
            m = DEFAULT_ERROR))) := by
  intro name ae b hc hs
  rw [tree_parser_file_fail_eq name ae b hc]
  constructor
  · intro hfp
    have htext : fileFailureErrorText name b = "failed to open file \"" ++ name ++ "\"" := by
      simp [fileFailureErrorText, hs, hfp]
    constructor
    · intro p hp
      cases ae
      · simp only [Bool.false_eq_true, if_false, Except.ok.injEq] at hp
        subst hp
        simp [get_error_message, htext]
      · simp at hp
    · intro m hm
      cases ae
      · simp at hm
      · simp only [if_true, Except.error.injEq] at hm
        rw [← hm, htext]
  · intro hfp
    have htext : fileFailureErrorText name b = DEFAULT_ERROR := by
      simp [fileFailureErrorText, hs, hfp]
    constructor
    · intro p hp
      cases ae
      · simp only [Bool.false_eq_true, if_false, Except.ok.injEq] at hp
        subst hp
        simp [get_error_message, htext]
      · simp at hp
    · intro m hm
      cases ae
      · simp at hm
      · simp only [if_true, Except.error.injEq] at hm
        rw [← hm, htext]

theorem c3_witness :
    ((∀ p, (tree_parser_file "missing.xml" false { events := [], tmpdoc := none, fopenSucceeds := false }).result = Except.ok p →
        get_error_message p = "failed to open file \"" ++ "missing.xml" ++ "\"") ∧
     (∀ m, (tree_parser_file "missing.xml" false { events := [], tmpdoc := none, fopenSucceeds := false }).result = Except.error m →
        m = "failed to open file \"" ++ "missing.xml" ++ "\"")) :=
  (c3_fopen_diagnostic "missing.xml" false { events := [], tmpdoc := none, fopenSucceeds := false } rfl rfl).1 rfl

theorem runCallbacks_no_error_last (evs : List CbEvent) (p : tree_impl)
    (h : ∀ e ∈ evs, isErrorEvent e = false) :
    (runCallbacks evs p).last_error_ = p.last_error_ := by
  induction evs generalizing p with
  | nil => rfl
  | cons e rest ih =>
    have he : isErrorEvent e = false := h e (List.mem_cons_self e rest)
    have hrest : ∀ e2 ∈ rest, isErrorEvent e2 = false := fun e2 hm => h e2 (List.mem_cons_of_mem e hm)
    show (runCallbacks rest (runEvent p e)).last_error_ = p.last_error_
    rw [ih (runEvent p e) hrest]
    cases e with
    | error n m f => simp [isErrorEvent] at he
    | warning n m => simp [runEvent, cb_tree_warning]; split <;> rfl
    | ignorableWhitespace => rfl

/-- Claim C10: after a tree_parser construction (file-based or memory-based)
that succeeds with no error callback ever firing, `get_error_message`
returns exactly the sentinel text "unknown XML parsing error".  The
query is a pure projection of the final state, so repeated queries
trivially keep returning the same text. -/
theorem c10_success_keeps_sentinel :
    (∀ (name : String) (ae : Bool) (b : FileParseBehavior) (p : tree_impl),
        (∀ e ∈ b.events, isErrorEvent e = false) →
        (tree_parser_file name ae b).result = Except.ok p →
        tree_parser_opNot p = false →
        get_error_message p = "unknown XML parsing error") ∧
    (∀ (ae : Bool) (b : MemParseBehavior) (p : tree_impl),
        (∀ e ∈ b.events, isErrorEvent e = false) →
        (tree_parser_mem ae b).result = Except.ok p →
        tree_parser_opNot p = false →
        get_error_message p = "unknown XML parsing error") := by
  constructor
  · intro name ae b p hne hres hok
    cases hc : (b.tmpdoc.isSome && (runCallbacks b.events treeImplStart).okay_) with
    | false =>
      rw [tree_parser_file_fail_eq name ae b hc] at hres
      cases ae
      · simp only [Bool.false_eq_true, if_false, Except.ok.injEq] at hres
        subst hres
        simp [tree_parser_opNot] at hok
      · simp at hres
    | true =>
      rw [tree_parser_file_success_eq name ae b hc] at hres
      simp only [Except.ok.injEq] at hres
      subst hres
      show (runCallbacks b.events treeImplStart).last_error_ = "unknown XML parsing error"
      rw [runCallbacks_no_error_last b.events treeImplStart hne]
      rfl
  · intro ae b p hne hres hok
    cases hctxt : b.ctxtCreated with
    | false =>
      rw [tree_parser_mem_noctxt_eq ae b hctxt] at hres
      simp at hres
    | true =>
      cases hc : (!b.wellFormed || b.retval != 0 || !(runCallbacks b.events treeImplStart).okay_) with
      | false =>
        rw [tree_parser_mem_success_eq ae b hctxt hc] at hres
        simp only [Except.ok.injEq] at hres
        subst hres
        show (runCallbacks b.events treeImplStart).last_error_ = "unknown XML parsing error"
        rw [runCallbacks_no_error_last b.events treeImplStart hne]
        rfl
      | true =>
        rw [tree_parser_mem_fail_eq ae b hctxt hc] at hres
        cases ae
        · simp only [Bool.false_eq_true, if_false, Except.ok.injEq] at hres
          subst hres
          simp [tree_parser_opNot] at hok
        · simp at hres

theorem c10_witness :
    get_error_message { doc_ := some 4, last_error_ := DEFAULT_ERROR, warnings_ := true, okay_ := true } = "unknown XML parsing error" :=
  c10_success_keeps_sentinel.1 "f" true { events := [CbEvent.warning false ['w'], CbEvent.ignorableWhitespace], tmpdoc := some 4, fopenSucceeds := true } { doc_ := some 4, last_error_ := DEFAULT_ERROR, warnings_ := true, okay_ := true } (by decide) rfl rfl

theorem runCallbacks_no_overwrite (evs : List CbEvent) (p : tree_impl)
    (h : lastOverwritingMsg evs = none) :
    (runCallbacks evs p).last_error_ = p.last_error_ := by
  induction evs generalizing p with
  | nil => rfl
  | cons e rest ih =>
    cases hr : lastOverwritingMsg rest with
    | some m => simp [lastOverwritingMsg, hr] at h
    | none =>
      show (runCallbacks rest (runEvent p e)).last_error_ = p.last_error_
      rw [ih (runEvent p e) hr]
      cases e with
      | error nullp mm ferr =>
        simp only [lastOverwritingMsg, hr] at h
        by_cases hcnd : (!nullp && (!ferr && decide (0 < mm.length))) = true
        · rw [if_pos hcnd] at h
          simp at h
        · rw [if_neg hcnd] at h
          simp only [Bool.and_eq_true, Bool.not_eq_true', decide_eq_true_eq, not_and] at hcnd
          cases hn : nullp with
          | true => simp [runEvent, cb_tree_error]
          | false =>
            simp only [runEvent, cb_tree_error, Bool.false_eq_true, if_false]
            by_cases hfv : ferr = true
            · rw [printf2string_noop p.last_error_ mm ferr (Or.inl hfv)]
            · have hfv2 : ferr = false := by
                cases hv : ferr
                · rfl
                · exact absurd hv hfv
              have hm : mm = [] := by
                have := hcnd hn hfv2
                exact List.length_eq_zero.mp (by omega)
              rw [printf2string_noop p.last_error_ mm ferr (Or.inr hm)]
      | warning nullp mm =>
        simp only [runEvent, cb_tree_warning]
        split <;> rfl
      | ignorableWhitespace => rfl

/-- Counterexample to claim C4: two successive error callbacks with non-null
back-pointer; the first sets `last_error_` to "a", the second changes it
again, to "b" — so `last_error_` is not overwritten "at most once, by
the first error callback" as claimed. -/
theorem c4_second_error_overwrites_again :
    (runCallbacks [CbEvent.error false ['a'] false] treeImplStart).last_error_ = "a" ∧
    (runCallbacks [CbEvent.error false ['a'] false, CbEvent.error false ['b'] false] treeImplStart).last_error_ = "b" ∧
    ("a" : String) ≠ "b" :=
  ⟨by decide, by decide, by decide⟩

/-- Amended claim C4: during a single parse, `last_error_` is overwritten by
every fatal/error callback whose back-pointer is non-null and whose
message formats to positive length; the final `last_error_` is the
formatted message of the last such callback, not the first. -/
theorem c4_last_error_is_last_message :
    ∀ (evs : List CbEvent) (p : tree_impl) (m : List Char),
      lastOverwritingMsg evs = some m →
      (runCallbacks evs p).last_error_ = printf2string DEFAULT_ERROR m false := by
  intro evs
  induction evs with
  | nil => intro p m h; simp [lastOverwritingMsg] at h
  | cons e rest ih =>
    intro p m h
    cases hr : lastOverwritingMsg rest with
    | some m2 =>
      simp only [lastOverwritingMsg, hr, Option.some.injEq] at h
      subst h
      exact ih (runEvent p e) m2 hr
    | none =>
      cases e with
      | error nullp mm ferr =>
        simp only [lastOverwritingMsg, hr] at h
        by_cases hcnd : (!nullp && (!ferr && decide (0 < mm.length))) = true
        · rw [if_pos hcnd] at h
          simp only [Option.some.injEq] at h
          subst h
          simp only [Bool.and_eq_true, Bool.not_eq_true', decide_eq_true_eq] at hcnd
          obtain ⟨hn, hf, hl⟩ := hcnd
          subst hn
          subst hf
          show (runCallbacks rest (cb_tree_error false mm false p)).last_error_ = _
          rw [runCallbacks_no_overwrite rest _ hr]
          simp only [cb_tree_error, Bool.false_eq_true, if_false]
          exact printf2string_base_irrel p.last_error_ DEFAULT_ERROR mm hl
        · rw [if_neg hcnd] at h
          simp at h
      | warning nullp mm => simp [lastOverwritingMsg, hr] at h
      | ignorableWhitespace => simp [lastOverwritingMsg, hr] at h

theorem c4_amended_witness :
    (runCallbacks [CbEvent.error false ['a'] false, CbEvent.error false ['b'] false] treeImplStart).last_error_ = printf2string DEFAULT_ERROR ['b'] false :=
  c4_last_error_is_last_message [CbEvent.error false ['a'] false, CbEvent.error false ['b'] false] treeImplStart ['b'] rfl

theorem takeWhile_append_replicate_nul (t : List Char) (k : Nat) (hk : 0 < k) :
    (t ++ List.replicate k nulChar).takeWhile (fun c => c != nulChar) =
      t.takeWhile (fun c => c != nulChar) := by
  induction t with
  | nil =>
    cases k with
    | zero => omega
    | succ n => simp [List.replicate_succ, List.takeWhile_cons]
  | cons a t2 ih =>
    simp only [List.cons_append, List.takeWhile_cons]
    by_cases ha : (a != nulChar) = true
    · rw [ha]
      simp only [if_true]
      rw [ih]
    · have ha2 : (a != nulChar) = false := by
        cases hv : (a != nulChar)
        · rfl
        · exact absurd hv ha
      rw [ha2]
      simp

theorem length_takeWhile_le_self (p : Char → Bool) (l : List Char) :
    (l.takeWhile p).length ≤ l.length := by
  induction l with
  | nil => simp
  | cons a t ih =>
    rw [List.takeWhile_cons]
    split
    · simpa using ih
    · simp

theorem strlen_vsnprintfBuffer (out : List Char) :
    strlen (vsnprintfBuffer out) =
      ((out.take (bufSize - 1)).takeWhile (fun c => c != nulChar)).length := by
  have hlen : (out.take (bufSize - 1)).length ≤ bufSize - 1 := List.length_take_le _ _
  have hk : 0 < bufSize - (out.take (bufSize - 1)).length := by
    simp only [bufSize] at hlen ⊢
    omega
  unfold strlen vsnprintfBuffer
  rw [takeWhile_append_replicate_nul _ _ hk]

theorem getD_pred_length (l : List Char) (d : Char) (h : l ≠ []) :
    l.getD (l.length - 1) d = l.getLast h := by
  induction l with
  | nil => exact absurd rfl h
  | cons a t ih =>
    cases t with
    | nil => rfl
    | cons b t2 =>
      have ht : (b :: t2) ≠ [] := by simp
      rw [List.getLast_cons ht, ← ih ht]
      have h1 : (a :: b :: t2).length - 1 = t2.length + 1 := by simp
      have h2 : (b :: t2).length - 1 = t2.length := by simp
      rw [h1, h2, List.getD_cons_succ]

/-- Amended claim C7: for every formatted output that does not begin with a
NUL byte (so the trailing-newline probe of C9 is in bounds), the
converter writes the formatted output truncated to the 511 characters
that fit the buffer and cut at the first embedded NUL, with a single
trailing newline stripped; on zero or negative formatted length the
output string is left unchanged.  `printf2stringSpec` states exactly
this contract. -/
theorem c7_formatting_contract :
    ∀ (s : String) (out : List Char) (f : Bool),
      out.head? ≠ some nulChar →
      printf2string s out f = printf2stringSpec s out f := by
  intro s out f hhead
  cases f with
  | true => simp [printf2string, printf2stringSpec]
  | false =>
    cases out with
    | nil => simp [printf2string, printf2stringSpec]
    | cons a out2 =>
      have ha : (a != nulChar) = true := by
        simp only [List.head?, ne_eq, Option.some.injEq] at hhead
        simpa using hhead
      have hpos : 0 < bufSize - 1 := by norm_num [bufSize]
      have hKne : (((a :: out2).take (bufSize - 1)).takeWhile (fun c => c != nulChar)) ≠ [] := by
        rw [List.take_cons hpos, List.takeWhile_cons]
        simp [ha]
      have hK1 : 1 ≤ (((a :: out2).take (bufSize - 1)).takeWhile (fun c => c != nulChar)).length :=
        List.length_pos.mpr hKne
      have hK511 : (((a :: out2).take (bufSize - 1)).takeWhile (fun c => c != nulChar)).length ≤ bufSize - 1 :=
        le_trans (length_takeWhile_le_self _ _) (List.length_take_le _ _)
      obtain ⟨R, hbuf⟩ : ∃ R, vsnprintfBuffer (a :: out2) =
          ((a :: out2).take (bufSize - 1)).takeWhile (fun c => c != nulChar) ++ R := by
        refine ⟨((a :: out2).take (bufSize - 1)).dropWhile (fun c => c != nulChar) ++
          List.replicate (bufSize - ((a :: out2).take (bufSize - 1)).length) nulChar, ?_⟩
        rw [vsnprintfBuffer, ← List.append_assoc, List.takeWhile_append_dropWhile]
      have hcL : (!false && decide (0 < (a :: out2).length)) = true := by simp
      have hcR : ¬ ((false || decide ((a :: out2).length = 0)) = true) := by simp
      simp only [printf2string, printf2stringSpec]
      rw [if_pos hcL, if_neg hcR]
      rw [strlen_vsnprintfBuffer (a :: out2)]
      rw [hbuf]
      set K := ((a :: out2).take (bufSize - 1)).takeWhile (fun c => c != nulChar) with hKdef
      have hidx : (K.length + (SIZE_T_MOD - 1)) % SIZE_T_MOD = K.length - 1 := by
        have hM : SIZE_T_MOD = 18446744073709551616 := by norm_num [SIZE_T_MOD]
        have hb : bufSize = 512 := rfl
        rw [hM]
        rw [hb] at hK511
        omega
      rw [hidx]
      rw [List.getD_append _ _ _ _ (by omega)]
      rw [getD_pred_length K nulChar hKne]
      rw [List.getLast?_eq_getLast K hKne]
      by_cases hnl : K.getLast hKne = '\n'
      · rw [if_pos hnl, if_pos (by rw [hnl])]
        rw [List.take_append_of_le_length (by omega), ← List.dropLast_eq_take]
      · rw [if_neg hnl, if_neg (by simp only [Option.some.injEq]; exact hnl)]
        rw [List.take_append_of_le_length le_rfl, List.take_length]

theorem c7_witness :
    printf2string "x" ['h', 'i', '\n'] false = printf2stringSpec "x" ['h', 'i', '\n'] false ∧
    printf2stringSpec "x" ['h', 'i', '\n'] false = "hi" :=
  ⟨c7_formatting_contract "x" ['h', 'i', '\n'] false (by decide), by decide⟩

/-- Counterexample to claim C7: for the formatted output "a\x00b" (e.g. format
`"%c%c%c"` with arguments 'a', 0, 'b'; `vsnprintf` returns 3 > 0) the
claim predicts the output string becomes the formatted message truncated
to the buffer, i.e. the three characters, with no trailing newline to
strip; the code instead stores only "a", because `strlen` stops at the
embedded NUL. -/
theorem c7_embedded_nul_truncates :
    printf2string "init" ['a', nulChar, 'b'] false = "a" ∧
    ("a" : String) ≠ String.mk ['a', nulChar, 'b'] :=
  ⟨by decide, by decide⟩

end Xmlwrapp
